import Mathlib

/-!
Verification development for the `teal-debugger` debug adapter
(`src/debugRequestHandlers.ts` and the `run` entrypoint).

The TypeScript handlers are embedded shallowly:
* JavaScript numbers that the program treats as integers are modelled as
  `Nat` / `Int` (all arithmetic in the handlers stays far below 2^53);
* strings are Lean `String`s, byte arrays are `List Nat` with entries < 256;
* the two hover regular expressions are embedded as executable parsers over
  character lists with the same acceptance language;
* the `Handles` container of `@vscode/debugadapter` (fresh numeric handles
  starting at 1000) is explicit state threaded through the handlers;
* handlers that only perform effects (console output, process exit, session
  startup) return explicit effect lists.
-/

/-- Decimal digit to its character, as JavaScript `toString` renders it.
Only ever applied to values below 10. -/
def digitToChar : Nat → Char
  | 0 => '0'
  | 1 => '1'
  | 2 => '2'
  | 3 => '3'
  | 4 => '4'
  | 5 => '5'
  | 6 => '6'
  | 7 => '7'
  | 8 => '8'
  | _ => '9'

/-- Numeric value of a decimal digit character. -/
def digitVal (c : Char) : Nat := c.toNat - 48

/-- True on the characters matched by the regex class `\d`. -/
def isDigitChar (c : Char) : Bool := 48 ≤ c.toNat && c.toNat ≤ 57

/-- Fuel-driven decimal rendering of a natural number, most significant digit
first; structural recursion on the fuel keeps it kernel-reducible. -/
def natToCharsAux : Nat → Nat → List Char
  | 0, _ => []
  | fuel + 1, n =>
    if n < 10 then [digitToChar n]
    else natToCharsAux fuel (n / 10) ++ [digitToChar (n % 10)]

/-- Decimal rendering of a natural number (JavaScript `n.toString()`). -/
def natToChars (n : Nat) : List Char := natToCharsAux (n + 1) n

/-- Decimal rendering of an integer (JavaScript template interpolation of a
number the program treats as an integer). -/
def intToChars (i : Int) : List Char :=
  if i < 0 then '-' :: natToChars i.natAbs else natToChars i.toNat

/-- Decimal rendering of a natural number as a `String`. -/
def natToString (n : Nat) : String := String.mk (natToChars n)

/-- Decimal rendering of an integer as a `String`. -/
def intToString (i : Int) : String := String.mk (intToChars i)

/-- Value of a nonempty all-digit character list, as `parseInt(s, 10)` computes
it for an in-range decimal literal. -/
def digitsToNat (cs : List Char) : Nat :=
  cs.foldl (fun a c => 10 * a + digitVal c) 0

/-- Parse a character list that must be one or more decimal digits (`\d+`);
anything else is rejected. -/
def parseDigits? (cs : List Char) : Option Nat :=
  if cs ≠ [] ∧ cs.all isDigitChar then some (digitsToNat cs) else none

/-- Parse `-?\d+` followed by `parseInt`, as the stack hover grammar does. -/
def parseSignedDigits? (cs : List Char) : Option Int :=
  match cs with
  | [] => none
  | c :: rest =>
    if c = '-' then (parseDigits? rest).map (fun n => -(n : Int))
    else (parseDigits? (c :: rest)).map (fun n => (n : Int))

/-- Strip an expected leading character sequence, failing on any mismatch;
used to embed the anchored literal part of the hover regexes. -/
def stripLead : List Char → List Char → Option (List Char)
  | [], cs => some cs
  | _ :: _, [] => none
  | p :: ps, c :: cs => if c = p then stripLead ps cs else none

/-- The literal head of `^stack\[(-?\d+)\]$`. -/
def stackPat : List Char := ['s', 't', 'a', 'c', 'k', '[']

/-- The literal head of `^scratch\[(\d+)\]$`. -/
def scratchPat : List Char := ['s', 'c', 'r', 'a', 't', 'c', 'h', '[']

/-- The literal head of `^--server=(\d{4,5})$`. -/
def serverPat : List Char := ['-', '-', 's', 'e', 'r', 'v', 'e', 'r', '=']

/-- Embedding of `/^stack\[(-?\d+)\]$/.exec(expression)` followed by
`parseInt` of the capture: the accepted language is exactly
`stack[` `-?\d+` `]`. -/
def matchStackExpr? (s : String) : Option Int :=
  match stripLead stackPat s.data with
  | none => none
  | some rest =>
    match rest.getLast? with
    | some ']' => parseSignedDigits? rest.dropLast
    | _ => none

/-- Embedding of `/^scratch\[(\d+)\]$/.exec(expression)` followed by
`parseInt` of the capture. -/
def matchScratchExpr? (s : String) : Option Nat :=
  match stripLead scratchPat s.data with
  | none => none
  | some rest =>
    match rest.getLast? with
    | some ']' => parseDigits? rest.dropLast
    | _ => none

/-- Embedding of `/^--server=(\d{4,5})$/.exec(val)` followed by `parseInt`. -/
def matchServerArg? (s : String) : Option Nat :=
  match stripLead serverPat s.data with
  | none => none
  | some ds =>
    if 4 ≤ ds.length ∧ ds.length ≤ 5 then parseDigits? ds else none

example : matchStackExpr? ("stack[1000]") = some 1000 := by decide
example : matchStackExpr? ("stack[-1]") = some (-1) := by decide
example : matchStackExpr? ("stack[]") = none := by decide
example : matchStackExpr? ("stack[-]") = none := by decide
example : matchStackExpr? ("stack[1]x") = none := by decide
example : matchScratchExpr? ("scratch[255]") = some 255 := by decide
example : matchScratchExpr? ("scratch[-1]") = none := by decide
example : matchStackExpr? ("scratch[3]") = none := by decide
example : matchScratchExpr? ("stack[3]") = none := by decide
example : matchServerArg? ("--server=4711") = some 4711 := by decide
example : matchServerArg? ("--server=471") = none := by decide

theorem natToCharsAux_spec :
    ∀ (fuel n : Nat), n < fuel →
      natToCharsAux fuel n ≠ [] ∧
      (natToCharsAux fuel n).all isDigitChar = true ∧
      digitsToNat (natToCharsAux fuel n) = n := by
  intro fuel
  induction fuel with
  | zero => intro n h; omega
  | succ fuel ih =>
    intro n h
    by_cases h10 : n < 10
    · have hd : isDigitChar (digitToChar n) = true ∧ digitVal (digitToChar n) = n := by
        interval_cases n <;> simp [digitToChar, digitVal, isDigitChar]
      refine ⟨by simp [natToCharsAux, h10], ?_, ?_⟩
      · simp [natToCharsAux, h10, hd.1]
      · simp [natToCharsAux, h10, digitsToNat, List.foldl, hd.2]
    · have hlt : n / 10 < fuel := by
        have := Nat.div_lt_self (by omega : 0 < n) (by omega : 1 < 10)
        omega
      obtain ⟨hne, hall, hval⟩ := ih (n / 10) hlt
      have hd : isDigitChar (digitToChar (n % 10)) = true ∧
          digitVal (digitToChar (n % 10)) = n % 10 := by
        have : n % 10 < 10 := Nat.mod_lt _ (by omega)
        interval_cases hm : n % 10 <;> simp [digitToChar, digitVal, isDigitChar]
      refine ⟨by simp [natToCharsAux, h10], ?_, ?_⟩
      · simp [natToCharsAux, h10, List.all_append, hall, hd.1]
      · simp only [natToCharsAux, h10, if_false, digitsToNat, List.foldl_append]
        simp only [digitsToNat] at hval
        simp [List.foldl, hval, hd.2]
        omega

theorem parseDigits_natToChars (n : Nat) : parseDigits? (natToChars n) = some n := by
  obtain ⟨hne, hall, hval⟩ := natToCharsAux_spec (n + 1) n (by omega)
  simp [natToChars, parseDigits?, hne, hall, hval]

theorem natToChars_head_digit (n : Nat) :
    ∀ c cs, natToChars n = c :: cs → isDigitChar c = true := by
  intro c cs heq
  obtain ⟨-, hall, -⟩ := natToCharsAux_spec (n + 1) n (by omega)
  rw [natToChars] at heq
  rw [heq] at hall
  simp [List.all_cons] at hall
  exact hall.1

theorem stripLead_append (p rest : List Char) : stripLead p (p ++ rest) = some rest := by
  induction p with
  | nil => rfl
  | cons c cs ih => simp [stripLead, ih]

/-- The hover expression `stack[i]` for an integer index `i`, exactly as a
client renders it. -/
def mkStackExpr (i : Int) : String := String.mk (stackPat ++ intToChars i ++ [']'])

theorem parseSignedDigits_intToChars (i : Int) :
    parseSignedDigits? (intToChars i) = some i := by
  by_cases hneg : i < 0
  · simp only [intToChars, if_pos hneg, parseSignedDigits?, parseDigits_natToChars]
    simp [abs_of_neg hneg]
  · have hnn : 0 ≤ i := by omega
    simp only [intToChars, if_neg hneg]
    rcases hcons : natToChars i.toNat with _ | ⟨c, cs⟩
    · exact absurd hcons (natToCharsAux_spec (i.toNat + 1) i.toNat (by omega)).1
    · have hdig := natToChars_head_digit i.toNat c cs hcons
      have hcm : ¬ (c = '-') := by
        intro h
        rw [h] at hdig
        simp [isDigitChar] at hdig
      simp only [parseSignedDigits?, if_neg hcm]
      rw [← hcons, parseDigits_natToChars]
      simp
      omega

theorem matchStackExpr_mk (i : Int) : matchStackExpr? (mkStackExpr i) = some i := by
  have hdata : (mkStackExpr i).data = stackPat ++ (intToChars i ++ [']']) := by
    simp [mkStackExpr]
  rw [matchStackExpr?, hdata, stripLead_append]
  simp only [List.getLast?_concat, List.dropLast_concat]
  exact parseSignedDigits_intToChars i

theorem matchStack_none_of_scratch (s : String) (n : Nat)
    (h : matchScratchExpr? s = some n) : matchStackExpr? s = none := by
  rcases hcs : s.data with _ | ⟨c1, cs1⟩
  · rw [matchScratchExpr?, hcs] at h
    simp [scratchPat, stripLead] at h
  · rcases cs1 with _ | ⟨c2, cs2⟩
    · rw [matchScratchExpr?, hcs] at h
      by_cases h1 : c1 = 's' <;> simp [scratchPat, stripLead, h1] at h
    · rw [matchScratchExpr?, hcs] at h
      by_cases h1 : c1 = 's'
      · by_cases h2 : c2 = 'c'
        · rw [matchStackExpr?, hcs]
          subst h1
          subst h2
          simp [stackPat, stripLead]
        · simp [scratchPat, stripLead, h1, h2] at h
      · simp [scratchPat, stripLead, h1] at h

/-- Tagged AVM value, per `algosdk.modelsv2.AvmValue`: `type === 1` is a byte
array (`avmValue.bytes || new Uint8Array()`), anything else is a uint64
(`avmValue.uint || 0`); the `|| default` fallbacks are collapsed into the
constructors. -/
inductive AvmValue
  | uint (uint : Nat)
  | bytes (bytes : List Nat)
deriving DecidableEq, Repr

/-- The source union type `AvmValueScope = 'stack' | 'scratch'`. -/
inductive AvmValueScope
  | stack
  | scratch
deriving DecidableEq, Repr

/-- String form of an `AvmValueScope`, used in `evaluateName` templates. -/
def scopeName : AvmValueScope → String
  | AvmValueScope.stack => "stack"
  | AvmValueScope.scratch => "scratch"

/-- The source class `AvmValueReference { scope, index }`. -/
structure AvmValueReference where
  scope : AvmValueScope
  index : Int
deriving DecidableEq, Repr

/-- The payload union of `Handles<'execution' | 'chain' | AvmValueScope |
AvmValueReference>` from the session. -/
inductive HandleValue
  | execution
  | chain
  | scope (s : AvmValueScope)
  | avmRef (r : AvmValueReference)
deriving DecidableEq, Repr

/-- The `Handles` container of `@vscode/debugadapter`: a counter starting at
1000 plus the map from issued handles to stored values. -/
structure Handles where
  next : Nat := 1000
  entries : List (Nat × HandleValue) := []
deriving DecidableEq, Repr

/-- `Handles.prototype.create`: issue the next handle and remember the value. -/
def Handles.create (h : Handles) (v : HandleValue) : Nat × Handles :=
  (h.next, { next := h.next + 1, entries := h.entries ++ [(h.next, v)] })

/-- `Handles.prototype.get`: look a handle up; unknown handles give `none`
(JavaScript `undefined`). -/
def Handles.get (h : Handles) (id : Nat) : Option HandleValue :=
  (h.entries.find? (fun e => e.1 = id)).map (fun e => e.2)

/-- A fresh `Handles` instance, as constructed by the session. -/
def handlesInit : Handles := {}

/-- `DebugProtocol.VariablePresentationHint` (the fields this adapter sets). -/
structure PresentationHint where
  kind : String
  attributes : Option (List String) := none
deriving DecidableEq, Repr

/-- `DebugProtocol.Variable` (the fields this adapter sets; absent optional
fields are `none`). -/
structure Variable where
  name : String
  value : String
  type : Option String := none
  variablesReference : Nat := 0
  namedVariables : Option Nat := none
  indexedVariables : Option Nat := none
  presentationHint : Option PresentationHint := none
  evaluateName : Option String := none
deriving DecidableEq, Repr

/-- The `variables` request filter argument (`'indexed' | 'named'`). -/
inductive FilterKind
  | indexed
  | named
deriving DecidableEq, Repr

/-- Modelled from the spec: `isAsciiPrintable` lives in `utils.ts`, which is
not under `src/`; the spec says the `ascii` rendering appears "only if all
bytes are printable ASCII", so it is modelled as every byte lying in the
printable range 0x20..0x7E. -/
def isAsciiPrintable (bytes : List Nat) : Bool :=
  bytes.all (fun b => 32 ≤ b && b ≤ 126)

/-- Modelled from the spec: `limitArray` lives in `utils.ts`, which is not
under `src/`; it implements DAP paging of children, so it is modelled as
dropping `start` (default 0) elements and then taking `count` (default: the
rest). -/
def limitArray {α : Type} (arr : List α) (start count : Option Nat) : List α :=
  match count with
  | none => arr.drop (start.getD 0)
  | some c => (arr.drop (start.getD 0)).take c

/-- Lowercase hexadecimal digit, as `Buffer.toString('hex')` renders it. -/
def hexDigitChar : Nat → Char
  | 0 => '0'
  | 1 => '1'
  | 2 => '2'
  | 3 => '3'
  | 4 => '4'
  | 5 => '5'
  | 6 => '6'
  | 7 => '7'
  | 8 => '8'
  | 9 => '9'
  | 10 => 'a'
  | 11 => 'b'
  | 12 => 'c'
  | 13 => 'd'
  | 14 => 'e'
  | _ => 'f'

/-- `Buffer.from(bytes).toString('hex')`: two lowercase hex digits per byte,
no prefix. -/
def bytesToHex (bytes : List Nat) : String :=
  String.mk (bytes.foldr
    (fun b acc => hexDigitChar (b / 16 % 16) :: hexDigitChar (b % 16) :: acc) [])

/-- The RFC 4648 base64 alphabet. -/
def base64Chars : List Char :=
  ("ABCDEFGHIJKLMNOPQRSTUVWXYZabcdefghijklmnopqrstuvwxyz0123456789+/").data

/-- Standard base64 encoding with `=` padding, grouping bytes in threes. -/
def base64Encode : List Nat → List Char
  | [] => []
  | [b1] =>
    [base64Chars.getD (b1 / 4) '.', base64Chars.getD (b1 % 4 * 16) '.', '=', '=']
  | [b1, b2] =>
    [base64Chars.getD (b1 / 4) '.', base64Chars.getD (b1 % 4 * 16 + b2 / 16) '.',
     base64Chars.getD (b2 % 16 * 4) '.', '=']
  | b1 :: b2 :: b3 :: rest =>
    [base64Chars.getD (b1 / 4) '.', base64Chars.getD (b1 % 4 * 16 + b2 / 16) '.',
     base64Chars.getD (b2 % 16 * 4 + b3 / 64) '.', base64Chars.getD (b3 % 64) '.']
    ++ base64Encode rest

/-- `Buffer.from(bytes).toString('base64')`. -/
def base64String (bytes : List Nat) : String := String.mk (base64Encode bytes)

/-- `Buffer.from(bytes).toString('ascii')`: each byte masked to 7 bits. -/
def asciiString (bytes : List Nat) : String :=
  String.mk (bytes.map (fun b => Char.ofNat (b % 128)))

/-- The RFC 4648 base32 alphabet used by Algorand addresses. -/
def base32Chars : List Char := ("ABCDEFGHIJKLMNOPQRSTUVWXYZ234567").data

/-- The eight bits of a byte, most significant first. -/
def byteBits (b : Nat) : List Nat :=
  [b / 128 % 2, b / 64 % 2, b / 32 % 2, b / 16 % 2, b / 8 % 2, b / 4 % 2,
   b / 2 % 2, b % 2]

/-- Bit stream of a byte list, most significant bit of each byte first. -/
def bytesToBits : List Nat → List Nat
  | [] => []
  | b :: rest => byteBits b ++ bytesToBits rest

/-- Split a bit list into groups of five (the final group possibly shorter);
fuel-driven to stay kernel-reducible. -/
def chunk5Aux : Nat → List Nat → List (List Nat)
  | 0, _ => []
  | _, [] => []
  | fuel + 1, b :: rest => (b :: rest.take 4) :: chunk5Aux fuel (rest.drop 4)

/-- Value of a five-bit group, a short final group being zero-padded. -/
def bitsVal (chunk : List Nat) : Nat :=
  chunk.foldl (fun a b => 2 * a + b) 0 * 2 ^ (5 - chunk.length)

/-- Base32 encoding without padding: exactly the first `ceil(8n/5)` data
characters that `hi-base32` produces, which is what `algosdk.encodeAddress`
keeps after its `slice(0, 58)`. -/
def base32NoPad (bytes : List Nat) : String :=
  String.mk ((chunk5Aux (bytesToBits bytes).length (bytesToBits bytes)).map
    (fun c => base32Chars.getD (bitsVal c) 'A'))

/-- Modelled from the spec: the Algorand address checksum is the last 4 bytes
of the SHA-512/256 digest of the 32-byte key, computed inside the external
`algosdk` library. The digest is outside this repository; only the checksum
LENGTH (4 bytes) is observable in the properties proved below, so the bytes
themselves are modelled as zeros. -/
def addressChecksum (_pk : List Nat) : List Nat := List.replicate 4 0

/-- `algosdk.encodeAddress`: base32 of key plus 4-byte checksum, the 58 data
characters kept. -/
def encodeAddress (pk : List Nat) : String :=
  base32NoPad (pk ++ addressChecksum pk)

/-- `TxnGroupDebugSession.convertAvmValue`: render one stack or scratch slot
as a DAP variable; a byte value additionally registers an
`AvmValueReference` handle for later expansion. -/
def convertAvmValue (scope : AvmValueScope) (avmValue : AvmValue) (index : Int)
    (h : Handles) : Variable × Handles :=
  match avmValue with
  | AvmValue.bytes bytes =>
    let refH := h.create (HandleValue.avmRef ⟨scope, index⟩)
    ({ name := intToString index,
       value := "0x" ++ bytesToHex bytes,
       type := some ("byte[]"),
       variablesReference := refH.1,
       namedVariables := some (if isAsciiPrintable bytes then 3 else 2),
       indexedVariables := some bytes.length,
       presentationHint := some { kind := "data", attributes := some ["rawString"] },
       evaluateName := some (scopeName scope ++ "[" ++ intToString index ++ "]") },
     refH.2)
  | AvmValue.uint uint =>
    ({ name := intToString index,
       value := natToString uint,
       type := some ("uint64"),
       variablesReference := 0,
       evaluateName := some (scopeName scope ++ "[" ++ intToString index ++ "]") },
     h)

/-- `stackValues.map((value, index) => this.convertAvmValue(scope, value,
index))`, threading the handle state left to right. -/
def convertAvmValues (scope : AvmValueScope) : List AvmValue → Nat → Handles →
    List Variable × Handles
  | [], _, h => ([], h)
  | v :: rest, i, h =>
    let vh := convertAvmValue scope v (i : Int) h
    let restH := convertAvmValues scope rest (i + 1) vh.2
    (vh.1 :: restH.1, restH.2)

/-- The three `BufferEncoding` names the expansion uses. -/
inductive BufFormat
  | hex
  | base64
  | ascii
deriving DecidableEq, Repr

/-- The `BufferEncoding` name as it appears as a child variable name. -/
def bufFormatName : BufFormat → String
  | BufFormat.hex => "hex"
  | BufFormat.base64 => "base64"
  | BufFormat.ascii => "ascii"

/-- `Buffer.from(bytes).toString(format)` for the three encodings used. -/
def bufferToString : BufFormat → List Nat → String
  | BufFormat.hex, bytes => bytesToHex bytes
  | BufFormat.base64, bytes => base64String bytes
  | BufFormat.ascii, bytes => asciiString bytes

/-- `TxnGroupDebugSession.expandAvmValue`: children of an expandable value.
A uint has none. For a byte value, unless the filter is `indexed`, the
format renderings (`hex`, `base64`, plus `ascii` when printable — but none
at all when the value is empty), then `address` when the length is exactly
32, then `length`; unless the filter is `named`, one indexed child per
byte. -/
def expandAvmValue (avmValue : AvmValue) (filter : Option FilterKind) :
    List Variable :=
  match avmValue with
  | AvmValue.uint _ => []
  | AvmValue.bytes bytes =>
    let namedPart :=
      if filter ≠ some FilterKind.indexed then
        let formats0 : List BufFormat := [BufFormat.hex, BufFormat.base64]
        let formats1 :=
          if isAsciiPrintable bytes then formats0 ++ [BufFormat.ascii] else formats0
        let formats := if bytes.length = 0 then [] else formats1
        (formats.map (fun format =>
          ({ name := bufFormatName format, type := some ("string"),
             value := bufferToString format bytes, variablesReference := 0 } : Variable)))
        ++ (if bytes.length = 32 then
              [({ name := "address", type := some ("string"),
                  value := encodeAddress bytes, variablesReference := 0 } : Variable)]
            else [])
        ++ [({ name := "length", type := some ("number"),
               value := natToString bytes.length, variablesReference := 0 } : Variable)]
      else []
    let indexedPart :=
      if filter ≠ some FilterKind.named then
        (List.range bytes.length).map (fun i =>
          ({ name := natToString i, type := some ("uint8"),
             value := natToString (bytes.getD i 0), variablesReference := 0 } : Variable))
      else []
    namedPart ++ indexedPart

example :
    (expandAvmValue (AvmValue.bytes [49, 33]) none).map (fun v => (v.name, v.value)) =
      [("hex", "3121"), ("base64", "MSE="), ("ascii", "1!"), ("length", "2"),
       ("0", "49"), ("1", "33")] := by decide

/-- `DebugProtocol.EvaluateResponse` as this handler fills it: the handler
always reaches `sendResponse`, so `success` is the default `true` (an
adapter-level error would surface as `success = false` or a thrown
exception, neither of which this handler can produce). -/
structure EvaluateResponse where
  success : Bool
  result : String
  type : Option String := none
  variablesReference : Nat := 0
  presentationHint : Option PresentationHint := none
deriving DecidableEq, Repr

/-- The out-of-range reply template for the stack grammar. -/
def outOfRangeStack (index : Int) : String :=
  "stack[" ++ intToString index ++ "] out of range"

/-- The out-of-range reply template for the scratch grammar. -/
def outOfRangeScratch (index : Nat) : String :=
  "scratch[" ++ natToString index ++ "] out of range"

/-- The body of `TxnGroupDebugSession.evaluateRequest` before its final
`if (rv)`: resolve the two hover grammars against the current stack and
scratch values, producing the `rv` variable or the textual `reply`.
Mirrors the source control flow, including the negative-index adjustment
and the (unreachable) second lookup branch. -/
def evaluateResolve (expression : String) (stackValues scratchValues : List AvmValue)
    (h : Handles) : Option Variable × Option String × Handles :=
  match matchStackExpr? expression with
  | some index0 =>
    let ir : Int × Option String :=
      if index0 < 0 then
        if index0 + (stackValues.length : Int) < 0 then
          (index0, some (outOfRangeStack index0))
        else
          (index0 + (stackValues.length : Int), none)
      else (index0, none)
    let index := ir.1
    if 0 ≤ index ∧ index < (stackValues.length : Int) then
      let rvh := convertAvmValue AvmValueScope.stack
        (stackValues.getD index.toNat (AvmValue.uint 0)) index h
      (some rvh.1, ir.2, rvh.2)
    else if index < 0 ∧ (stackValues.length : Int) + index ≥ 0 then
      let rvh := convertAvmValue AvmValueScope.stack
        (stackValues.getD ((stackValues.length : Int) + index).toNat (AvmValue.uint 0))
        index h
      (some rvh.1, ir.2, rvh.2)
    else
      (none, some (outOfRangeStack index), h)
  | none =>
    match matchScratchExpr? expression with
    | some index =>
      -- the `0 <= index` half of the source guard is automatic for `Nat`
      if index < scratchValues.length then
        let rvh := convertAvmValue AvmValueScope.scratch
          (scratchValues.getD index (AvmValue.uint 0)) (index : Int) h
        (some rvh.1, none, rvh.2)
      else
        (none, some (outOfRangeScratch index), h)
    | none => (none, none, h)

/-- `TxnGroupDebugSession.evaluateRequest`: the response body built from the
resolution; both branches reach `sendResponse`, so `success` is `true`. -/
def evaluateRequest (expression : String) (stackValues scratchValues : List AvmValue)
    (h : Handles) : EvaluateResponse × Handles :=
  match evaluateResolve expression stackValues scratchValues h with
  | (some rv, _, h1) =>
    ({ success := true, result := rv.value, type := rv.type,
       variablesReference := rv.variablesReference,
       presentationHint := rv.presentationHint }, h1)
  | (none, reply, h1) =>
    ({ success := true,
       result := reply.getD ("unknown expression: \"" ++ expression ++ "\""),
       variablesReference := 0 }, h1)

example :
    (evaluateRequest ("stack[1000]") [AvmValue.uint 5] [] handlesInit).1.result =
      "stack[1000] out of range" := by decide
example :
    (evaluateRequest ("stack[-1]") [AvmValue.uint 7, AvmValue.uint 42] [] handlesInit).1.result =
      "42" := by decide
example :
    (evaluateRequest ("foo") [] [] handlesInit).1.result =
      "unknown expression: \"foo\"" := by decide

/-- `DebugProtocol.Scope` (the fields this adapter sets). -/
structure ScopeEntry where
  name : String
  variablesReference : Nat
  expensive : Bool
deriving DecidableEq, Repr

/-- `TxnGroupDebugSession.scopesRequest`: always exactly the two scopes
`Execution State` and `On-chain State`, each backed by a fresh handle. -/
def scopesRequest (h : Handles) : List ScopeEntry × Handles :=
  let executionH := h.create HandleValue.execution
  let chainH := executionH.2.create HandleValue.chain
  ([{ name := "Execution State", variablesReference := executionH.1, expensive := false },
    { name := "On-chain State", variablesReference := chainH.1, expensive := false }],
   chainH.2)

/-- `TxnGroupDebugSession.variablesRequest`: resolve a variables reference.
The `'chain'` branch of the source consists solely of commented-out code,
so it leaves the variable list empty. An `AvmValueReference` whose index is
outside the current value list makes the source dereference `undefined`
and throw (an adapter-level error), modelled as `Except.error`. -/
def variablesRequest (reference : Nat) (filter : Option FilterKind)
    (start count : Option Nat) (stackValues scratchValues : List AvmValue)
    (h : Handles) : Except String (List Variable × Handles) :=
  match h.get reference with
  | some HandleValue.execution =>
    let stackH := h.create (HandleValue.scope AvmValueScope.stack)
    let scratchH := stackH.2.create (HandleValue.scope AvmValueScope.scratch)
    Except.ok
      ([{ name := "stack",
          value := if stackValues.length = 0 then "[]" else "[...]",
          type := some ("array"),
          variablesReference := stackH.1,
          namedVariables := some 1,
          indexedVariables := some stackValues.length,
          presentationHint := some { kind := "data" } },
        { name := "scratch",
          value := "[...]",
          type := some ("array"),
          variablesReference := scratchH.1,
          indexedVariables := some 256,
          presentationHint := some { kind := "data" } }],
       scratchH.2)
  | some HandleValue.chain => Except.ok ([], h)
  | some (HandleValue.scope AvmValueScope.stack) =>
    if filter ≠ some FilterKind.named then
      let varsH := convertAvmValues AvmValueScope.stack stackValues 0 h
      Except.ok (limitArray varsH.1 start count, varsH.2)
    else Except.ok ([], h)
  | some (HandleValue.scope AvmValueScope.scratch) =>
    if filter ≠ some FilterKind.named then
      let varsH := convertAvmValues AvmValueScope.scratch scratchValues 0 h
      Except.ok (limitArray varsH.1 start count, varsH.2)
    else Except.ok ([], h)
  | some (HandleValue.avmRef r) =>
    let vals :=
      match r.scope with
      | AvmValueScope.stack => stackValues
      | AvmValueScope.scratch => scratchValues
    if 0 ≤ r.index ∧ r.index < (vals.length : Int) then
      Except.ok
        (limitArray (expandAvmValue (vals.getD r.index.toNat (AvmValue.uint 0)) filter)
          start count, h)
    else
      Except.error "TypeError: cannot read properties of undefined"
  | none => Except.ok ([], h)

/-- One entry of `exceptionBreakpointFilters`. -/
structure ExceptionFilterEntry where
  filter : String
  label : String
  description : Option String := none
  isDefault : Option Bool := none
  supportsCondition : Option Bool := none
  conditionDescription : Option String := none
deriving DecidableEq, Repr

/-- `DebugProtocol.Capabilities`: only the fields `initializeRequest`
assigns; everything else stays unset (`none`), as in the empty
`response.body` the handler starts from. -/
structure Capabilities where
  supportsConfigurationDoneRequest : Option Bool := none
  supportsEvaluateForHovers : Option Bool := none
  supportsStepBack : Option Bool := none
  supportsCancelRequest : Option Bool := none
  supportsBreakpointLocationsRequest : Option Bool := none
  supportsStepInTargetsRequest : Option Bool := none
  supportsSingleThreadExecutionRequests : Option Bool := none
  supportsTerminateThreadsRequest : Option Bool := none
  supportsExceptionFilterOptions : Option Bool := none
  exceptionBreakpointFilters : Option (List ExceptionFilterEntry) := none
  supportSuspendDebuggee : Option Bool := none
  supportTerminateDebuggee : Option Bool := none
  supportsDelayedStackTraceLoading : Option Bool := none
deriving DecidableEq, Repr

/-- `TxnGroupDebugSession.initializeRequest`: the capability set advertised in
the initialize response body (the handler then sends the response followed
by an `InitializedEvent`). -/
def initializeRequest : Capabilities :=
  { supportsConfigurationDoneRequest := some true,
    supportsEvaluateForHovers := some true,
    supportsStepBack := some true,
    supportsCancelRequest := some false,
    supportsBreakpointLocationsRequest := some true,
    supportsStepInTargetsRequest := some true,
    supportsSingleThreadExecutionRequests := some false,
    supportsTerminateThreadsRequest := some false,
    supportsExceptionFilterOptions := some true,
    exceptionBreakpointFilters := some
      [{ filter := "namedException",
         label := "Named Exception",
         description := some ("Break on named exceptions. Enter the exception\x27s name as the Condition."),
         isDefault := some false,
         supportsCondition := some true,
         conditionDescription := some ("Enter the exception\x27s name") },
       { filter := "otherExceptions",
         label := "Other Exceptions",
         description := some ("This is a other exception"),
         isDefault := some true,
         supportsCondition := some false }],
    supportSuspendDebuggee := some true,
    supportTerminateDebuggee := some true,
    supportsDelayedStackTraceLoading := some true }

/-- Observable actions of the handlers and the entrypoint that reach outside
the session: console output, DAP responses and events, `session.shutdown`,
`process.exit`, asset loading, and session startup. -/
inductive Effect
  | consoleLog (msg : String)
  | consoleError (msg : String)
  | sendResponse (command : String)
  | sendEvent (event : String)
  | shutdown
  | processExit (code : Nat)
  | loadAssets (simPath descPath : String)
  | startSession (asServer : Bool)
deriving DecidableEq, Repr

/-- JavaScript template rendering of a possibly-undefined boolean. -/
def renderOptBool : Option Bool → String
  | none => "undefined"
  | some true => "true"
  | some false => "false"

/-- `TxnGroupDebugSession.disconnectRequest`: the entire body is one
`console.log`; the overridden base-class behavior (shutdown plus response)
is not invoked, no response is sent and no state is touched. -/
def disconnectRequest (suspendDebuggee terminateDebuggee : Option Bool) :
    List Effect :=
  [Effect.consoleLog ("disconnectRequest suspend: " ++ renderOptBool suspendDebuggee
    ++ ", terminate: " ++ renderOptBool terminateDebuggee)]

/-- Does an effect list end the debug session (shutdown, a terminated event,
or process exit)? This is the spec-side reading of "terminates the
session". -/
def terminatesSession (effects : List Effect) : Bool :=
  effects.any (fun e =>
    match e with
    | Effect.shutdown => true
    | Effect.sendEvent ev => ev = "terminated"
    | Effect.processExit _ => true
    | _ => false)

/-- Arguments of `breakpointLocationsRequest` (the fields the handler
reads). -/
structure BplArgs where
  sourcePath : Option String
  line : Nat
  endLine : Option Nat
deriving DecidableEq, Repr

/-- `DebugProtocol.BreakpointLocation` (the fields this adapter sets). -/
structure BplLocation where
  line : Nat
  column : Option Nat := none
deriving DecidableEq, Repr

/-- `TxnGroupDebugSession.breakpointLocationsRequest`: the source handler
answers `[{ line: args.line }]` whenever a path is present and `[]`
otherwise — it never consults any source map. -/
def breakpointLocationsRequest (args : BplArgs) : List BplLocation :=
  if args.sourcePath.isSome then [{ line := args.line }] else []

/-- Insert one (line, column) pair into a list sorted ascending by (line,
column). -/
def insertLoc (p : Nat × Nat) : List (Nat × Nat) → List (Nat × Nat)
  | [] => [p]
  | q :: rest =>
    if p.1 < q.1 ∨ (p.1 = q.1 ∧ p.2 ≤ q.2) then p :: q :: rest
    else q :: insertLoc p rest

/-- Sort (line, column) pairs ascending by (line, column). -/
def sortLocs (l : List (Nat × Nat)) : List (Nat × Nat) := l.foldr insertLoc []

/-- Deduplicate, keeping first occurrences. -/
def dedupLocs (l : List (Nat × Nat)) : List (Nat × Nat) :=
  l.foldl (fun acc p => if p ∈ acc then acc else acc ++ [p]) []

/-- Modelled from the spec: the source-map-driven enumeration that the spec
(§4.2) and the repository's own tests prescribe for
`breakpointLocationsRequest` — "for a file and a line range it returns the
union of (line, column) pairs of all recorded entries, deduplicated,
sorted by (line, column)". A source map is a list of
(file, line, column) entries. -/
def specBreakpointLocations (entries : List (String × Nat × Nat)) (file : String)
    (startLine endLine : Nat) : List (Nat × Nat) :=
  sortLocs (dedupLocs ((entries.filter
    (fun e => e.1 = file && startLine ≤ e.2.1 && e.2.1 ≤ endLine)).map
    (fun e => e.2)))

/-- Line-7 neighbourhood of the `sourcemap-test.teal` source map, as the
repository's adapter test records it. -/
def demoSourceMap : List (String × Nat × Nat) :=
  [("sourcemap-test.teal", 4, 1), ("sourcemap-test.teal", 7, 5),
   ("sourcemap-test.teal", 7, 12), ("sourcemap-test.teal", 7, 19),
   ("sourcemap-test.teal", 8, 5)]

/-- `run` up to its first effect: read the two environment variables, parse
`--server` (the last matching argument wins), fail on a missing variable,
otherwise load the assets and start the session. The `throw`s are the
`Except.error`s; `run().catch` turns them into a diagnostic plus
`process.exit(1)`. -/
def runBody (simulateResponsePath txnGroupSourcesDescriptionPath : Option String)
    (argv : List String) : Except String (List Effect) :=
  let port := argv.foldl
    (fun p v => match matchServerArg? v with
      | some n => n
      | none => p) 0
  match simulateResponsePath with
  | none => Except.error "missing ALGORAND_SIMULATION_RESPONSE_PATH"
  | some simPath =>
    match txnGroupSourcesDescriptionPath with
    | none => Except.error "missing ALGORAND_TXN_GROUP_SOURCES_DESCRIPTION_PATH"
    | some descPath =>
      Except.ok ([Effect.loadAssets simPath descPath] ++
        (if 0 < port then
          [Effect.consoleError ("waiting for debug protocol on port " ++ natToString port),
           Effect.startSession true]
        else [Effect.startSession false]))

/-- `run().catch(err => { console.error(err); process.exit(1); })`. -/
def runMain (simulateResponsePath txnGroupSourcesDescriptionPath : Option String)
    (argv : List String) : List Effect :=
  match runBody simulateResponsePath txnGroupSourcesDescriptionPath argv with
  | Except.error e => [Effect.consoleError e, Effect.processExit 1]
  | Except.ok effects => effects

/-- Does an effect list start a debug session? -/
def startsSession (effects : List Effect) : Bool :=
  effects.any (fun e =>
    match e with
    | Effect.startSession _ => true
    | _ => false)

theorem length_bytesToBits (bytes : List Nat) :
    (bytesToBits bytes).length = 8 * bytes.length := by
  induction bytes with
  | nil => rfl
  | cons b rest ih =>
    simp [bytesToBits, byteBits, ih]
    omega

theorem chunk5Aux_length :
    ∀ (fuel : Nat) (l : List Nat), l.length ≤ fuel →
      (chunk5Aux fuel l).length = (l.length + 4) / 5 := by
  intro fuel
  induction fuel with
  | zero =>
    intro l h
    have : l = [] := by
      cases l with
      | nil => rfl
      | cons a rest => simp at h
    subst this
    rfl
  | succ fuel ih =>
    intro l h
    cases l with
    | nil => rfl
    | cons b rest =>
      have hr : (rest.drop 4).length ≤ fuel := by
        simp [List.length_drop]
        simp at h
        omega
      simp only [chunk5Aux, List.length_cons]
      rw [ih (rest.drop 4) hr]
      simp [List.length_drop]
      omega

theorem length_stringMk (cs : List Char) : (String.mk cs).length = cs.length := rfl

theorem encodeAddress_length (pk : List Nat) (h : pk.length = 32) :
    (encodeAddress pk).length = 58 := by
  have hlen : (pk ++ addressChecksum pk).length = 36 := by
    simp [addressChecksum, h]
  rw [encodeAddress, base32NoPad, length_stringMk, List.length_map,
    chunk5Aux_length _ _ (le_refl _), length_bytesToBits, hlen]

theorem evaluateResolve_stack_oor (expression : String)
    (stackValues scratchValues : List AvmValue) (h : Handles) (i : Int)
    (hm : matchStackExpr? expression = some i)
    (hoor : (stackValues.length : Int) ≤ i ∨ i + (stackValues.length : Int) < 0) :
    evaluateResolve expression stackValues scratchValues h =
      (none, some (outOfRangeStack i), h) := by
  rcases hoor with hge | hneg
  · have h0 : ¬ (i < 0) := by omega
    simp only [evaluateResolve, hm, if_neg h0]
    rw [if_neg (show ¬ (0 ≤ i ∧ i < (stackValues.length : Int)) by omega)]
    rw [if_neg (show ¬ (i < 0 ∧ (stackValues.length : Int) + i ≥ 0) by omega)]
  · have h0 : i < 0 := by omega
    simp only [evaluateResolve, hm, if_pos h0, if_pos hneg]
    rw [if_neg (show ¬ (0 ≤ i ∧ i < (stackValues.length : Int)) by omega)]
    rw [if_neg (show ¬ (i < 0 ∧ (stackValues.length : Int) + i ≥ 0) by omega)]

theorem evaluateResolve_stack_negative (expression : String)
    (stackValues scratchValues : List AvmValue) (h : Handles) (i : Int)
    (hm : matchStackExpr? expression = some i)
    (hlo : -(stackValues.length : Int) ≤ i) (hhi : i ≤ -1) :
    evaluateResolve expression stackValues scratchValues h =
      (some (convertAvmValue AvmValueScope.stack
          (stackValues.getD (i + (stackValues.length : Int)).toNat (AvmValue.uint 0))
          (i + (stackValues.length : Int)) h).1,
       none,
       (convertAvmValue AvmValueScope.stack
          (stackValues.getD (i + (stackValues.length : Int)).toNat (AvmValue.uint 0))
          (i + (stackValues.length : Int)) h).2) := by
  have h0 : i < 0 := by omega
  have hadj : ¬ (i + (stackValues.length : Int) < 0) := by omega
  simp only [evaluateResolve, hm, if_pos h0, if_neg hadj]
  rw [if_pos (show 0 ≤ i + (stackValues.length : Int) ∧
    i + (stackValues.length : Int) < (stackValues.length : Int) by omega)]

theorem evaluateResolve_scratch_oor (expression : String)
    (stackValues scratchValues : List AvmValue) (h : Handles) (n : Nat)
    (hm : matchScratchExpr? expression = some n)
    (hoor : scratchValues.length ≤ n) :
    evaluateResolve expression stackValues scratchValues h =
      (none, some (outOfRangeScratch n), h) := by
  have hstack := matchStack_none_of_scratch expression n hm
  simp only [evaluateResolve, hstack, hm]
  rw [if_neg (show ¬ (n < scratchValues.length) by omega)]

theorem evaluateRequest_success (expression : String)
    (stackValues scratchValues : List AvmValue) (h : Handles) :
    (evaluateRequest expression stackValues scratchValues h).1.success = true := by
  rcases hr : evaluateResolve expression stackValues scratchValues h with ⟨rv, reply, h1⟩
  rcases rv with _ | v <;> simp [evaluateRequest, hr]

/-- C6: the initialize response advertises `supportsStepBack = true`,
`supportsBreakpointLocationsRequest = true`, `supportsEvaluateForHovers =
true`, `supportsDelayedStackTraceLoading = true`, and
`supportsSingleThreadExecutionRequests = false`. -/
theorem initialize_capabilities_advertised :
    initializeRequest.supportsStepBack = some true ∧
    initializeRequest.supportsBreakpointLocationsRequest = some true ∧
    initializeRequest.supportsEvaluateForHovers = some true ∧
    initializeRequest.supportsDelayedStackTraceLoading = some true ∧
    initializeRequest.supportsSingleThreadExecutionRequests = some false :=
  ⟨rfl, rfl, rfl, rfl, rfl⟩

/-- C9: expanding an empty byte-string value with no filter yields exactly the
`length` child with value "0" (no hex, base64, ascii, address, or indexed
children), and expanding a Uint value yields no children for any filter. -/
theorem expand_empty_bytes_and_uint :
    expandAvmValue (AvmValue.bytes []) none =
      [{ name := "length", value := "0", type := some ("number"),
         variablesReference := 0 }] ∧
    ∀ (n : Nat) (filter : Option FilterKind),
      expandAvmValue (AvmValue.uint n) filter = [] :=
  ⟨by decide, fun _ _ => rfl⟩

/-- C7 counterexample: at the concrete disconnect request with both arguments
absent, the handler terminates nothing — its effects contain no shutdown,
no terminated event, and no process exit (and in fact no response at
all), refuting "terminates the debug session and releases its file-backed
resources". -/
theorem disconnect_does_not_terminate :
    terminatesSession (disconnectRequest none none) = false := by decide

/-- C7 amended: handling a disconnect request only logs the suspend/terminate
arguments to the console; it neither terminates the session nor releases
any resources (it does not even send a response). -/
theorem disconnect_only_logs (suspendDebuggee terminateDebuggee : Option Bool) :
    disconnectRequest suspendDebuggee terminateDebuggee =
      [Effect.consoleLog ("disconnectRequest suspend: " ++ renderOptBool suspendDebuggee
        ++ ", terminate: " ++ renderOptBool terminateDebuggee)] ∧
    terminatesSession (disconnectRequest suspendDebuggee terminateDebuggee) = false :=
  ⟨rfl, rfl⟩

/-- C1: the code's `breakpointLocationsRequest` answers `[{ line: args.line }]`
without consulting any source map, so on the repository's own
`sourcemap-test.teal` fixture (line 7 holds mapped columns 5, 12, 19) it
disagrees with the spec-mandated enumeration of recorded (line, column)
pairs. -/
theorem breakpointLocations_ignores_source_maps :
    breakpointLocationsRequest
        { sourcePath := some ("sourcemap-test.teal"), line := 7, endLine := some 7 } =
      [{ line := 7, column := none }] ∧
    specBreakpointLocations demoSourceMap "sourcemap-test.teal" 7 7 =
      [(7, 5), (7, 12), (7, 19)] ∧
    breakpointLocationsRequest
        { sourcePath := some ("sourcemap-test.teal"), line := 7, endLine := some 7 } ≠
      (specBreakpointLocations demoSourceMap "sourcemap-test.teal" 7 7).map
        (fun lc => { line := lc.1, column := some lc.2 }) :=
  ⟨rfl, by decide, by decide⟩

/-- C2: the scopes request does return exactly the two scopes `Execution
State` and `On-chain State`, and expanding `Execution State` yields the
children `stack` and `scratch`; but expanding `On-chain State` yields no
children at all (the per-application state block in the source is
commented out), refuting the claimed per-app `globalState` / `localState`
/ `boxState` children. -/
theorem scopes_and_onchain_children_code_behavior :
    (scopesRequest handlesInit).1 =
      [{ name := "Execution State", variablesReference := 1000, expensive := false },
       { name := "On-chain State", variablesReference := 1001, expensive := false }] ∧
    variablesRequest 1001 none none none
        [AvmValue.uint 10, AvmValue.bytes [49, 33]] [AvmValue.uint 0]
        (scopesRequest handlesInit).2 =
      Except.ok ([], (scopesRequest handlesInit).2) ∧
    (variablesRequest 1000 none none none
        [AvmValue.uint 10, AvmValue.bytes [49, 33]] [AvmValue.uint 0]
        (scopesRequest handlesInit).2).map
      (fun p => p.1.map (fun v => v.name)) = Except.ok ["stack", "scratch"] :=
  ⟨rfl, rfl, rfl⟩

/-- C3 counterexample: expanding the 2-byte stack value b"1!" yields a `hex`
child whose value is "3121", not the claimed "0x3121" (the `0x` prefix
exists only on the value itself, not on the expansion child). -/
theorem expand_hex_child_not_prefixed :
    ((expandAvmValue (AvmValue.bytes [49, 33]) none).filter
      (fun v => v.name == "hex")).map (fun v => v.value) ≠ ["0x3121"] := by decide

/-- C3 amended: expanding a nonempty byte-string value (no filter) yields
children rendering it simultaneously as hex (lowercase, without a `0x`
prefix) and base64, ascii iff every byte is printable ASCII, address iff
the length is exactly 32 bytes (rendered as a 58-character Algorand
address), a length field, and one indexed child per byte; in particular
for b"1!" the children are hex = "3121", base64 = "MSE=", ascii = "1!",
length = 2, indexed children 0 = 49 and 1 = 33, and no address child. -/
theorem expandAvmValue_children_amended :
    (∀ (bytes : List Nat), bytes ≠ [] →
      expandAvmValue (AvmValue.bytes bytes) none =
        [({ name := "hex", value := bytesToHex bytes, type := some ("string"),
            variablesReference := 0 } : Variable),
         ({ name := "base64", value := base64String bytes, type := some ("string"),
            variablesReference := 0 } : Variable)]
        ++ (if isAsciiPrintable bytes then
              [({ name := "ascii", value := asciiString bytes, type := some ("string"),
                  variablesReference := 0 } : Variable)]
            else [])
        ++ (if bytes.length = 32 then
              [({ name := "address", value := encodeAddress bytes, type := some ("string"),
                  variablesReference := 0 } : Variable)]
            else [])
        ++ [({ name := "length", value := natToString bytes.length, type := some ("number"),
               variablesReference := 0 } : Variable)]
        ++ (List.range bytes.length).map (fun i =>
             ({ name := natToString i, value := natToString (bytes.getD i 0),
                type := some ("uint8"), variablesReference := 0 } : Variable))) ∧
    (∀ (bytes : List Nat), bytes.length = 32 → (encodeAddress bytes).length = 58) ∧
    expandAvmValue (AvmValue.bytes [49, 33]) none =
      [({ name := "hex", value := "3121", type := some ("string"),
          variablesReference := 0 } : Variable),
       ({ name := "base64", value := "MSE=", type := some ("string"),
          variablesReference := 0 } : Variable),
       ({ name := "ascii", value := "1!", type := some ("string"),
          variablesReference := 0 } : Variable),
       ({ name := "length", value := "2", type := some ("number"),
          variablesReference := 0 } : Variable),
       ({ name := "0", value := "49", type := some ("uint8"),
          variablesReference := 0 } : Variable),
       ({ name := "1", value := "33", type := some ("uint8"),
          variablesReference := 0 } : Variable)] := by
  refine ⟨?_, fun bytes h => encodeAddress_length bytes h, by decide⟩
  intro bytes hne
  have hlen : ¬ (bytes.length = 0) := by simpa using hne
  by_cases hp : isAsciiPrintable bytes <;>
    simp [expandAvmValue, hlen, hp, bufFormatName, bufferToString]

/-- C3 amended, witnessed at the concrete inputs b"1!" (children shape) and a
32-byte value (58-character address). -/
theorem expandAvmValue_children_amended_witness :
    (([49, 33] : List Nat) ≠ []) ∧
    (expandAvmValue (AvmValue.bytes [49, 33]) none =
      [({ name := "hex", value := bytesToHex [49, 33], type := some ("string"),
          variablesReference := 0 } : Variable),
       ({ name := "base64", value := base64String [49, 33], type := some ("string"),
          variablesReference := 0 } : Variable)]
      ++ (if isAsciiPrintable [49, 33] then
            [({ name := "ascii", value := asciiString [49, 33], type := some ("string"),
                variablesReference := 0 } : Variable)]
          else [])
      ++ (if ([49, 33] : List Nat).length = 32 then
            [({ name := "address", value := encodeAddress [49, 33], type := some ("string"),
                variablesReference := 0 } : Variable)]
          else [])
      ++ [({ name := "length", value := natToString ([49, 33] : List Nat).length,
             type := some ("number"), variablesReference := 0 } : Variable)]
      ++ (List.range ([49, 33] : List Nat).length).map (fun i =>
           ({ name := natToString i, value := natToString (([49, 33] : List Nat).getD i 0),
              type := some ("uint8"), variablesReference := 0 } : Variable))) ∧
    (List.replicate 32 0 : List Nat).length = 32 ∧
    (encodeAddress (List.replicate 32 0)).length = 58 :=
  ⟨by decide,
   expandAvmValue_children_amended.1 [49, 33] (by decide),
   by decide,
   expandAvmValue_children_amended.2.1 (List.replicate 32 0) (by decide)⟩

/-- C4: whenever the expression matches the stack grammar with an out-of-range
index (or the scratch grammar with an out-of-range index), the evaluate
request still succeeds and the response body carries the human-readable
out-of-range string; no adapter-level error is produced and no handle
state changes. -/
theorem evaluate_out_of_range_inlined :
    (∀ (expression : String) (stackValues scratchValues : List AvmValue)
       (h : Handles) (i : Int),
      matchStackExpr? expression = some i →
      ((stackValues.length : Int) ≤ i ∨ i + (stackValues.length : Int) < 0) →
      evaluateRequest expression stackValues scratchValues h =
        ({ success := true, result := outOfRangeStack i, type := none,
           variablesReference := 0, presentationHint := none }, h)) ∧
    (∀ (expression : String) (stackValues scratchValues : List AvmValue)
       (h : Handles) (n : Nat),
      matchScratchExpr? expression = some n →
      scratchValues.length ≤ n →
      evaluateRequest expression stackValues scratchValues h =
        ({ success := true, result := outOfRangeScratch n, type := none,
           variablesReference := 0, presentationHint := none }, h)) := by
  constructor
  · intro expression stackValues scratchValues h i hm hoor
    unfold evaluateRequest
    rw [evaluateResolve_stack_oor expression stackValues scratchValues h i hm hoor]
    rfl
  · intro expression stackValues scratchValues h n hm hoor
    unfold evaluateRequest
    rw [evaluateResolve_scratch_oor expression stackValues scratchValues h n hm hoor]
    rfl

/-- C4 witnessed at the concrete input of the claim: with a 1-element stack,
`evaluate("stack[1000]")` succeeds with the literal body
"stack[1000] out of range". -/
theorem evaluate_out_of_range_inlined_witness :
    matchStackExpr? ("stack[1000]") = some 1000 ∧
    (([AvmValue.uint 5] : List AvmValue).length : Int) ≤ 1000 ∧
    evaluateRequest ("stack[1000]") [AvmValue.uint 5] [] handlesInit =
      ({ success := true, result := "stack[1000] out of range", type := none,
         variablesReference := 0, presentationHint := none }, handlesInit) := by
  refine ⟨by decide, by decide, ?_⟩
  have h1 := evaluate_out_of_range_inlined.1 ("stack[1000]") [AvmValue.uint 5] []
    handlesInit 1000 (by decide) (Or.inl (by decide))
  have h2 : outOfRangeStack (1000 : Int) = "stack[1000] out of range" := by decide
  rw [h2] at h1
  exact h1

/-- C5: for a stack of length n and any index i with -n ≤ i ≤ -1, evaluating
`stack[i]` returns (the converted rendering of) the stack element at
position n + i, so negative indices address the stack from the top and
`stack[-1]` is the top of the stack. -/
theorem evaluate_negative_stack_index (stackValues scratchValues : List AvmValue)
    (h : Handles) (i : Int)
    (hlo : -(stackValues.length : Int) ≤ i) (hhi : i ≤ -1) :
    evaluateRequest (mkStackExpr i) stackValues scratchValues h =
      ({ success := true,
         result := (convertAvmValue AvmValueScope.stack
           (stackValues.getD ((stackValues.length : Int) + i).toNat (AvmValue.uint 0))
           ((stackValues.length : Int) + i) h).1.value,
         type := (convertAvmValue AvmValueScope.stack
           (stackValues.getD ((stackValues.length : Int) + i).toNat (AvmValue.uint 0))
           ((stackValues.length : Int) + i) h).1.type,
         variablesReference := (convertAvmValue AvmValueScope.stack
           (stackValues.getD ((stackValues.length : Int) + i).toNat (AvmValue.uint 0))
           ((stackValues.length : Int) + i) h).1.variablesReference,
         presentationHint := (convertAvmValue AvmValueScope.stack
           (stackValues.getD ((stackValues.length : Int) + i).toNat (AvmValue.uint 0))
           ((stackValues.length : Int) + i) h).1.presentationHint },
       (convertAvmValue AvmValueScope.stack
         (stackValues.getD ((stackValues.length : Int) + i).toNat (AvmValue.uint 0))
         ((stackValues.length : Int) + i) h).2) := by
  have hcomm : (stackValues.length : Int) + i = i + (stackValues.length : Int) := by omega
  rw [hcomm]
  unfold evaluateRequest
  rw [evaluateResolve_stack_negative (mkStackExpr i) stackValues scratchValues h i
    (matchStackExpr_mk i) hlo hhi]

/-- C5 witnessed at the concrete input of the claim: on the stack [7, 42],
`evaluate("stack[-1]")` returns the top of the stack, 42. -/
theorem evaluate_negative_stack_index_witness :
    -(([AvmValue.uint 7, AvmValue.uint 42] : List AvmValue).length : Int) ≤ -1 ∧
    ((-1 : Int) ≤ -1) ∧
    evaluateRequest (mkStackExpr (-1)) [AvmValue.uint 7, AvmValue.uint 42] [] handlesInit =
      ({ success := true, result := "42", type := some ("uint64"),
         variablesReference := 0, presentationHint := none }, handlesInit) := by
  refine ⟨by decide, by decide, ?_⟩
  have h1 := evaluate_negative_stack_index [AvmValue.uint 7, AvmValue.uint 42] []
    handlesInit (-1) (by decide) (by decide)
  exact h1

/-- C8: if either required environment variable is unset at startup, the
entrypoint prints a diagnostic naming the (first) missing variable and
exits with status 1, without starting a session (the
`ALGORAND_SIMULATION_RESPONSE_PATH` check runs first). -/
theorem missing_env_exits_with_diagnostic
    (simulateResponsePath txnGroupSourcesDescriptionPath : Option String)
    (argv : List String)
    (hmiss : simulateResponsePath = none ∨ txnGroupSourcesDescriptionPath = none) :
    runMain simulateResponsePath txnGroupSourcesDescriptionPath argv =
      [Effect.consoleError
        (if simulateResponsePath = none then "missing ALGORAND_SIMULATION_RESPONSE_PATH"
         else "missing ALGORAND_TXN_GROUP_SOURCES_DESCRIPTION_PATH"),
       Effect.processExit 1] ∧
    startsSession (runMain simulateResponsePath txnGroupSourcesDescriptionPath argv)
      = false := by
  rcases hmiss with hs | hd
  · subst hs
    exact ⟨by simp [runMain, runBody], by simp [runMain, runBody, startsSession]⟩
  · subst hd
    rcases simulateResponsePath with _ | sp
    · exact ⟨by simp [runMain, runBody], by simp [runMain, runBody, startsSession]⟩
    · exact ⟨by simp [runMain, runBody], by simp [runMain, runBody, startsSession]⟩

/-- C8 witnessed at a concrete startup: simulation path unset, descriptor path
set, a server argument present — diagnostic plus exit 1, no session. -/
theorem missing_env_exits_with_diagnostic_witness :
    ((none : Option String) = none ∨ (some ("desc.json") : Option String) = none) ∧
    runMain none (some ("desc.json")) ["--server=4711"] =
      [Effect.consoleError ("missing ALGORAND_SIMULATION_RESPONSE_PATH"),
       Effect.processExit 1] ∧
    startsSession (runMain none (some ("desc.json")) ["--server=4711"]) = false := by
  refine ⟨Or.inl rfl, ?_, ?_⟩
  · have h1 := (missing_env_exits_with_diagnostic none (some ("desc.json"))
      ["--server=4711"] (Or.inl rfl)).1
    simpa using h1
  · exact (missing_env_exits_with_diagnostic none (some ("desc.json"))
      ["--server=4711"] (Or.inl rfl)).2

/-- C10: the evaluate handler always succeeds (it can produce no
adapter-level error for any expression), and whenever the expression
matches neither hover grammar the body result is the literal
`unknown expression: "<expression>"` with variablesReference 0. -/
theorem evaluate_unknown_expression_inlined :
    (∀ (expression : String) (stackValues scratchValues : List AvmValue) (h : Handles),
      ((evaluateRequest expression stackValues scratchValues h).1).success = true) ∧
    (∀ (expression : String) (stackValues scratchValues : List AvmValue) (h : Handles),
      matchStackExpr? expression = none → matchScratchExpr? expression = none →
      evaluateRequest expression stackValues scratchValues h =
        ({ success := true,
           result := "unknown expression: \"" ++ expression ++ "\"",
           type := none, variablesReference := 0, presentationHint := none }, h)) := by
  constructor
  · exact evaluateRequest_success
  · intro expression stackValues scratchValues h h1 h2
    unfold evaluateRequest
    have hres : evaluateResolve expression stackValues scratchValues h = (none, none, h) := by
      simp [evaluateResolve, h1, h2]
    rw [hres]
    rfl

/-- C10 witnessed at the concrete expression "foo", which matches neither
grammar. -/
theorem evaluate_unknown_expression_inlined_witness :
    matchStackExpr? ("foo") = none ∧ matchScratchExpr? ("foo") = none ∧
    evaluateRequest ("foo") [] [] handlesInit =
      ({ success := true, result := "unknown expression: \"foo\"",
         type := none, variablesReference := 0, presentationHint := none }, handlesInit) := by
  refine ⟨by decide, by decide, ?_⟩
  exact evaluate_unknown_expression_inlined.2 ("foo") [] [] handlesInit
    (by decide) (by decide)
